import Mathlib

set_option maxRecDepth 8000

/-!
Verification development for the claude-flow-multilang language pipeline.

The definitions below are a shallow embedding of the TypeScript sources
`src/i18n/language-manager.ts`, `src/cultural/context-analyzer.ts` and
`src/polyglot/polyglot-agent.ts`.  JavaScript strings are modelled as
`List Char` / `String`; JavaScript numbers appearing as scores are `Nat`,
confidences are `ℚ`; `undefined`-able values are `Option`; code that can
throw returns `Except String`.
-/

/-! ### JavaScript character primitives -/

/-- The set of code points removed by `String.prototype.trim`
(ECMAScript WhiteSpace ∪ LineTerminator). -/
def jsWhitespace (c : Char) : Bool :=
  let n := c.toNat
  n == 9 || n == 10 || n == 11 || n == 12 || n == 13 || n == 32 ||
  n == 0x85 || n == 0xA0 || n == 0x1680 ||
  (0x2000 ≤ n && n ≤ 0x200A) || n == 0x2028 || n == 0x2029 ||
  n == 0x202F || n == 0x205F || n == 0x3000 || n == 0xFEFF

/-- Per-code-point model of `String.prototype.toLowerCase` covering the
alphabets used by the repository's tables: ASCII, Latin-1 letters and
Cyrillic.  Code points outside these ranges are left unchanged. -/
def jsToLower (c : Char) : Char :=
  if 65 ≤ c.toNat ∧ c.toNat ≤ 90 then Char.ofNat (c.toNat + 32)
  else if 192 ≤ c.toNat ∧ c.toNat ≤ 222 ∧ c.toNat ≠ 215 then Char.ofNat (c.toNat + 32)
  else if 0x410 ≤ c.toNat ∧ c.toNat ≤ 0x42F then Char.ofNat (c.toNat + 32)
  else if 0x400 ≤ c.toNat ∧ c.toNat ≤ 0x40F then Char.ofNat (c.toNat + 80)
  else c

/-- `text.toLowerCase()` as a list of characters. -/
def lowerList (s : String) : List Char := s.toList.map jsToLower

/-- ASCII word character, JavaScript `\w` without the `u` flag. -/
def isWordChar (c : Char) : Bool :=
  ('a' ≤ c && c ≤ 'z') || ('A' ≤ c && c ≤ 'Z') || ('0' ≤ c && c ≤ '9') || c == '_'

/-- JavaScript line terminators, the characters `.` does not match. -/
def isLineTerm (c : Char) : Bool :=
  c == '\n' || c == '\r' || c.toNat == 0x2028 || c.toNat == 0x2029

/-- `hay.includes(sub)` on character lists (`String.prototype.includes`). -/
def containsSub : List Char → List Char → Bool
  | [], sub => sub.isEmpty
  | c :: t, sub => sub.isPrefixOf (c :: t) || containsSub t sub

/-! ### Supported languages (`src/polyglot/types.ts`, enum SupportedLanguage) -/

/-- The closed `SupportedLanguage` enum, in declaration order. -/
inductive SupportedLanguage where
  | EN | RU | ZH_CN | ZH_TW | JA | KO | DE | FR | ES | PT | TR | TH | IT | HI
deriving DecidableEq

open SupportedLanguage

/-- Enumeration order of the language tables
(`Object.entries(LANGUAGE_PATTERNS)` iterates the literal's key order,
which coincides with the enum declaration order). -/
def allLanguages : List SupportedLanguage :=
  [EN, RU, ZH_CN, ZH_TW, JA, KO, DE, FR, ES, PT, TR, TH, IT, HI]

/-! ### Text normalizer (`LanguageManager.normalize`) -/

/-- Left part of `String.prototype.trim`. -/
def trimLeft (l : List Char) : List Char := l.dropWhile jsWhitespace

/-- Right part of `String.prototype.trim`. -/
def trimRight (l : List Char) : List Char :=
  (l.reverse.dropWhile jsWhitespace).reverse

/-- `String.prototype.trim`. -/
def jsTrim (l : List Char) : List Char := trimRight (trimLeft l)

/-- Per-character fold of `convertFullWidthToHalfWidth`: code points in
U+FF01–U+FF5E are shifted down by 0xFEE0, everything else is unchanged
(the source's `text.replace(/[！-～]/g, ch => ch - 0xfee0)`). -/
def foldFullWidth (c : Char) : Char :=
  if 0xFF01 ≤ c.toNat ∧ c.toNat ≤ 0xFF5E then Char.ofNat (c.toNat - 0xFEE0) else c

/-- `convertFullWidthToHalfWidth` on a character list. -/
def convertFullWidthToHalfWidth (l : List Char) : List Char := l.map foldFullWidth

/-- `normalizeChineseText` is the identity in the source (placeholder body). -/
def normalizeChineseText (l : List Char) : List Char := l

namespace LanguageManager

/-- `LanguageManager.normalize(text, language)`: trim, then one
language-keyed transform (full-width fold for JA, identity for Chinese,
lowercase for every other language). -/
def normalize (text : String) (language : SupportedLanguage) : String :=
  let t := jsTrim text.toList
  match language with
  | JA => String.mk (convertFullWidthToHalfWidth t)
  | ZH_CN | ZH_TW => String.mk (normalizeChineseText t)
  | _ => String.mk (t.map jsToLower)

end LanguageManager

/-! ### Helper lemmas for idempotence of `normalize` -/

theorem toNat_charOfNat (n : Nat) (h : n < 55296) : (Char.ofNat n).toNat = n := by
  unfold Char.ofNat
  rw [dif_pos (Or.inl h)]
  rfl

theorem char_eq_of_toNat {a b : Char} (h : a.toNat = b.toNat) : a = b := by
  apply Char.ext
  have h2 : a.val.toBitVec.toNat = b.val.toBitVec.toNat := h
  exact UInt32.eq_of_toBitVec_eq (BitVec.eq_of_toNat_eq h2)

theorem toNat_jsToLower (c : Char) : (jsToLower c).toNat =
    (if 65 ≤ c.toNat ∧ c.toNat ≤ 90 then c.toNat + 32
     else if 192 ≤ c.toNat ∧ c.toNat ≤ 222 ∧ c.toNat ≠ 215 then c.toNat + 32
     else if 0x410 ≤ c.toNat ∧ c.toNat ≤ 0x42F then c.toNat + 32
     else if 0x400 ≤ c.toNat ∧ c.toNat ≤ 0x40F then c.toNat + 80
     else c.toNat) := by
  unfold jsToLower
  split_ifs with h1 h2 h3 h4 <;> first | (exact toNat_charOfNat _ (by omega)) | rfl

theorem toNat_foldFullWidth (c : Char) : (foldFullWidth c).toNat =
    (if 0xFF01 ≤ c.toNat ∧ c.toNat ≤ 0xFF5E then c.toNat - 0xFEE0 else c.toNat) := by
  unfold foldFullWidth
  split_ifs with h1 <;> first | (exact toNat_charOfNat _ (by omega)) | rfl

theorem jsToLower_idem (c : Char) : jsToLower (jsToLower c) = jsToLower c := by
  apply char_eq_of_toNat
  rw [toNat_jsToLower (jsToLower c), toNat_jsToLower c]
  split_ifs <;> omega

theorem foldFullWidth_idem (c : Char) :
    foldFullWidth (foldFullWidth c) = foldFullWidth c := by
  apply char_eq_of_toNat
  rw [toNat_foldFullWidth (foldFullWidth c), toNat_foldFullWidth c]
  split_ifs <;> omega

theorem jsWhitespace_toNat (c : Char) :
    jsWhitespace c = true ↔
      c.toNat = 9 ∨ c.toNat = 10 ∨ c.toNat = 11 ∨ c.toNat = 12 ∨ c.toNat = 13 ∨
      c.toNat = 32 ∨ c.toNat = 0x85 ∨ c.toNat = 0xA0 ∨ c.toNat = 0x1680 ∨
      (0x2000 ≤ c.toNat ∧ c.toNat ≤ 0x200A) ∨ c.toNat = 0x2028 ∨ c.toNat = 0x2029 ∨
      c.toNat = 0x202F ∨ c.toNat = 0x205F ∨ c.toNat = 0x3000 ∨ c.toNat = 0xFEFF := by
  unfold jsWhitespace
  simp only [Bool.or_eq_true, beq_iff_eq, Bool.and_eq_true, decide_eq_true_eq]
  tauto

theorem jsWhitespace_jsToLower (c : Char) :
    jsWhitespace (jsToLower c) = jsWhitespace c := by
  rw [Bool.eq_iff_iff, jsWhitespace_toNat, jsWhitespace_toNat, toNat_jsToLower]
  split_ifs <;> omega

theorem jsWhitespace_foldFullWidth (c : Char) :
    jsWhitespace (foldFullWidth c) = jsWhitespace c := by
  rw [Bool.eq_iff_iff, jsWhitespace_toNat, jsWhitespace_toNat, toNat_foldFullWidth]
  split_ifs <;> omega

theorem dropWhile_idem (p : α → Bool) (l : List α) :
    (l.dropWhile p).dropWhile p = l.dropWhile p := by
  induction l with
  | nil => rfl
  | cons c t ih =>
    by_cases h : p c
    · simpa [List.dropWhile_cons, h] using ih
    · simp [List.dropWhile_cons, h]

theorem trimRight_prefix (l : List Char) : trimRight l <+: l := by
  unfold trimRight
  obtain ⟨t, ht⟩ := List.dropWhile_suffix (l := l.reverse) jsWhitespace
  exact ⟨t.reverse, by rw [← List.reverse_append, ht, List.reverse_reverse]⟩

theorem trimLeft_head (l : List Char) :
    trimLeft l = [] ∨ ∃ c t, trimLeft l = c :: t ∧ jsWhitespace c = false := by
  induction l with
  | nil => exact Or.inl rfl
  | cons c t ih =>
    by_cases h : jsWhitespace c
    · simpa [trimLeft, List.dropWhile_cons, h] using ih
    · exact Or.inr ⟨c, t, by simp [trimLeft, List.dropWhile_cons, h], by simpa using h⟩

theorem trimLeft_of_head_false (c : Char) (t : List Char) (h : jsWhitespace c = false) :
    trimLeft (c :: t) = c :: t := by
  simp [trimLeft, List.dropWhile_cons, h]

theorem trimRight_idem (l : List Char) : trimRight (trimRight l) = trimRight l := by
  unfold trimRight
  rw [List.reverse_reverse, dropWhile_idem]

theorem jsTrim_idem (l : List Char) : jsTrim (jsTrim l) = jsTrim l := by
  unfold jsTrim
  rcases trimLeft_head l with h | ⟨c, t, h, hc⟩
  · rw [h]
    rfl
  · rw [h]
    rcases he : trimRight (c :: t) with _ | ⟨c2, t2⟩
    · rfl
    · have hpre := trimRight_prefix (c :: t)
      rw [he] at hpre
      obtain ⟨s, hs⟩ := hpre
      simp only [List.cons_append] at hs
      have hhead : c2 = c := (List.cons.injEq _ _ _ _ ▸ hs).1
      have hws2 : jsWhitespace c2 = false := by rw [hhead]; exact hc
      rw [trimLeft_of_head_false c2 t2 hws2, ← he, trimRight_idem]

theorem trimLeft_map (f : Char → Char) (hf : ∀ c, jsWhitespace (f c) = jsWhitespace c)
    (l : List Char) : trimLeft (l.map f) = (trimLeft l).map f := by
  unfold trimLeft
  rw [List.dropWhile_map f jsWhitespace l,
    show jsWhitespace ∘ f = jsWhitespace from funext fun c => hf c]

theorem trimRight_map (f : Char → Char) (hf : ∀ c, jsWhitespace (f c) = jsWhitespace c)
    (l : List Char) : trimRight (l.map f) = (trimRight l).map f := by
  unfold trimRight
  rw [← List.map_reverse, List.dropWhile_map f jsWhitespace l.reverse,
    show jsWhitespace ∘ f = jsWhitespace from funext fun c => hf c, List.map_reverse]

theorem jsTrim_map (f : Char → Char) (hf : ∀ c, jsWhitespace (f c) = jsWhitespace c)
    (l : List Char) : jsTrim (l.map f) = (jsTrim l).map f := by
  unfold jsTrim
  rw [trimLeft_map f hf, trimRight_map f hf]

theorem map_idem_of_idem (f : Char → Char) (hf : ∀ c, f (f c) = f c) (l : List Char) :
    (l.map f).map f = l.map f := by
  rw [List.map_map]
  exact List.map_congr_left fun c _ => hf c

theorem normalize_map_branch (f : Char → Char)
    (hws : ∀ c, jsWhitespace (f c) = jsWhitespace c)
    (hid : ∀ c, f (f c) = f c) (x : String) :
    String.mk ((jsTrim ((jsTrim x.toList).map f)).map f)
      = String.mk ((jsTrim x.toList).map f) := by
  rw [jsTrim_map f hws, jsTrim_idem, map_idem_of_idem f hid]

/-- Claim C8: normalization is idempotent — for every input string and every
supported language, `normalize (normalize x L) L = normalize x L`; this covers
the trim-plus-lowercase default branch, the Japanese full-width fold and the
identity branch for Chinese. -/
theorem normalize_idempotent (x : String) (L : SupportedLanguage) :
    LanguageManager.normalize (LanguageManager.normalize x L) L
      = LanguageManager.normalize x L := by
  cases L with
  | JA =>
      exact normalize_map_branch foldFullWidth jsWhitespace_foldFullWidth foldFullWidth_idem x
  | ZH_CN => exact congrArg String.mk (jsTrim_idem x.toList)
  | ZH_TW => exact congrArg String.mk (jsTrim_idem x.toList)
  | EN => exact normalize_map_branch jsToLower jsWhitespace_jsToLower jsToLower_idem x
  | RU => exact normalize_map_branch jsToLower jsWhitespace_jsToLower jsToLower_idem x
  | KO => exact normalize_map_branch jsToLower jsWhitespace_jsToLower jsToLower_idem x
  | DE => exact normalize_map_branch jsToLower jsWhitespace_jsToLower jsToLower_idem x
  | FR => exact normalize_map_branch jsToLower jsWhitespace_jsToLower jsToLower_idem x
  | ES => exact normalize_map_branch jsToLower jsWhitespace_jsToLower jsToLower_idem x
  | PT => exact normalize_map_branch jsToLower jsWhitespace_jsToLower jsToLower_idem x
  | TR => exact normalize_map_branch jsToLower jsWhitespace_jsToLower jsToLower_idem x
  | TH => exact normalize_map_branch jsToLower jsWhitespace_jsToLower jsToLower_idem x
  | IT => exact normalize_map_branch jsToLower jsWhitespace_jsToLower jsToLower_idem x
  | HI => exact normalize_map_branch jsToLower jsWhitespace_jsToLower jsToLower_idem x

/-! ### Intent extractor (`LanguageManager.extractIntent`) -/

namespace LanguageManager

/-- The three regex shapes used by `initializeIntentPatterns`:
`/\b(v1|…|vn)\b.*?(?<target>\w+)/i`, `/\b(v1|…|vn)\b.*?(?<query>.*)/i`
and `/\b(v1|…|vn)\b/i`. -/
inductive IntentPattern where
  | verbTarget (verbs : List String)
  | verbQuery (verbs : List String)
  | verbOnly (verbs : List String)

/-- Word-character test across an optional character (string edges count as
non-word for the `\b` assertion). -/
def wordOpt : Option Char → Bool
  | none => false
  | some c => isWordChar c

/-- Case-insensitive literal prefix match (the `/i` flag): the stored
alternative is lowercase, each text character is folded before comparison.
Returns the remaining text on success. -/
def ciPrefix : List Char → List Char → Option (List Char)
  | [], l => some l
  | _ :: _, [] => none
  | v :: vs, c :: cs => if jsToLower c == v then ciPrefix vs cs else none

/-- The tail `.*?(?<target>\w+)` of a verb/target pattern, applied after the
verb's closing `\b`: the lazy gap stops at the first word character (and `.`
cannot cross a line terminator); the capture is the greedy `\w+` run there. -/
def findTargetAfter : List Char → Option String
  | [] => none
  | c :: cs =>
    if isWordChar c then some (String.mk ((c :: cs).takeWhile isWordChar))
    else if isLineTerm c then none
    else findTargetAfter cs

/-- Try each alternative of the `\b(v1|…|vn)\b` group, in order, at the
current position; on a verb match with both boundaries, run the
continuation `k` (the rest of the regex); on its failure backtrack to the
next alternative. -/
def tryAlts (verbs : List (List Char)) (prev : Option Char) (l : List Char)
    (k : List Char → Option (List (String × String))) :
    Option (List (String × String)) :=
  match verbs with
  | [] => none
  | v :: vs =>
    match (if wordOpt prev != wordOpt v.head? then ciPrefix v l else none) with
    | some rest =>
      if wordOpt v.getLast? != wordOpt rest.head? then
        match k rest with
        | some caps => some caps
        | none => tryAlts vs prev l k
      else tryAlts vs prev l k
    | none => tryAlts vs prev l k

/-- Leftmost-match scan: try the alternation at each start position from the
left, carrying the previous character for the `\b` assertion. -/
def scanAux (verbs : List (List Char)) (k : List Char → Option (List (String × String))) :
    Option Char → List Char → Option (List (String × String))
  | prev, l =>
    match tryAlts verbs prev l k with
    | some caps => some caps
    | none =>
      match l with
      | [] => none
      | c :: rest => scanAux verbs k (some c) rest

/-- Run one intent regex against a text: `some groups` iff `pattern.test(text)`
is true, where `groups` are the named captures of `text.match(pattern)`
(empty for the capture-free `help` shape). -/
def runPattern (p : IntentPattern) (text : String) : Option (List (String × String)) :=
  match p with
  | .verbTarget verbs =>
    scanAux (verbs.map String.toList)
      (fun rest => (findTargetAfter rest).map (fun t => [("target", t)])) none text.toList
  | .verbQuery verbs =>
    scanAux (verbs.map String.toList)
      (fun rest => some [("query", String.mk (rest.takeWhile (fun c => !isLineTerm c)))])
      none text.toList
  | .verbOnly verbs =>
    scanAux (verbs.map String.toList) (fun _ => some []) none text.toList

/-- English intent patterns of `initializeIntentPatterns`, in map insertion
order. -/
def intentPatternsEN : List (String × IntentPattern) :=
  [("create", .verbTarget ["create", "make", "build", "generate", "construct"]),
   ("delete", .verbTarget ["delete", "remove", "destroy", "eliminate"]),
   ("update", .verbTarget ["update", "modify", "change", "edit"]),
   ("search", .verbQuery ["search", "find", "look for", "query"]),
   ("help", .verbOnly ["help", "assist", "support", "guide"])]

/-- Russian intent patterns of `initializeIntentPatterns`. -/
def intentPatternsRU : List (String × IntentPattern) :=
  [("create", .verbTarget ["создать", "создай", "сделать", "сделай", "построить"]),
   ("delete", .verbTarget ["удалить", "удали", "убрать", "убери"]),
   ("update", .verbTarget ["обновить", "обнови", "изменить", "измени"]),
   ("search", .verbQuery ["найти", "найди", "искать", "ищи", "поиск"]),
   ("help", .verbOnly ["помощь", "помоги", "поддержка", "справка"])]

/-- The `intentPatterns` map: only EN and RU are populated by the source. -/
def intentPatterns : SupportedLanguage → Option (List (String × IntentPattern))
  | EN => some intentPatternsEN
  | RU => some intentPatternsRU
  | _ => none

/-- The for-loop of `extractIntent`: first pattern whose regex tests true
wins and contributes its named capture groups. -/
def firstPatternMatch :
    List (String × IntentPattern) → String → Option (String × List (String × String))
  | [], _ => none
  | (name, p) :: rest, text =>
    match runPattern p text with
    | some caps => some (name, caps)
    | none => firstPatternMatch rest text

/-- The keyword table of `inferIntent`. -/
def intentKeywords : List (String × List String) :=
  [("create", ["new", "add", "create", "make", "build"]),
   ("delete", ["delete", "remove", "destroy", "clear"]),
   ("update", ["update", "change", "modify", "edit"]),
   ("search", ["find", "search", "look", "where", "what"]),
   ("help", ["help", "how", "why", "explain", "guide"])]

/-- `inferIntent`: keyword-containment classifier over the lowercased text;
first intent with a hit wins, else "general". -/
def inferIntent (text : String) (_language : SupportedLanguage) : String :=
  let lowerText := lowerList text
  match intentKeywords.find? (fun ik => ik.2.any (fun kw => containsSub lowerText kw.toList)) with
  | some ik => ik.1
  | none => "general"

/-- Result of `extractIntent`. -/
structure IntentResult where
  intent : String
  entities : List (String × String)
  confidence : ℚ
deriving DecidableEq

/-- `LanguageManager.extractIntent(text, language)`: the language's pattern
table (EN fallback), first regex match wins with confidence 0.8 and its
capture groups as entities; otherwise `inferIntent` with confidence 0.5 and
no entities. -/
def extractIntent (text : String) (language : SupportedLanguage) : IntentResult :=
  match firstPatternMatch ((intentPatterns language).getD intentPatternsEN) text with
  | some (intent, caps) => ⟨intent, caps, 0.8⟩
  | none => ⟨inferIntent text language, [], 0.5⟩

end LanguageManager

/-- Claim C3 (counterexample): on the normalized English input
"create a new project" the extractor does not bind entity "target" to
"project" — the lazy `.*?` makes `\w+` capture the first word after the
verb. -/
theorem extractIntent_create_project_counterexample :
    (LanguageManager.extractIntent "create a new project" EN).entities
      ≠ [("target", "project")] := by
  decide

/-- Claim C3 (amended): extractIntent on "create a new project" with EN
returns intent "create", confidence 0.8, and entities binding "target" to
"a" (the first word after the matched verb, by lazy-then-greedy regex
semantics). -/
theorem extractIntent_create_project :
    LanguageManager.extractIntent "create a new project" EN
      = ⟨"create", [("target", "a")], 0.8⟩ := by
  rfl

/-- Claim C10: whenever `extractIntent` resolves through the keyword-fallback
path (returned confidence 0.5, including the intent="general" case), the
returned entities map is empty; entities can only come from a regex pattern
match (confidence 0.8). -/
theorem extractIntent_fallback_entities_empty (text : String)
    (language : SupportedLanguage)
    (h : (LanguageManager.extractIntent text language).confidence = 0.5) :
    (LanguageManager.extractIntent text language).entities = [] := by
  unfold LanguageManager.extractIntent at h ⊢
  cases hm : LanguageManager.firstPatternMatch
      ((LanguageManager.intentPatterns language).getD LanguageManager.intentPatternsEN)
      text with
  | none => simp only [hm]
  | some v =>
    obtain ⟨name, caps⟩ := v
    rw [hm] at h
    exact absurd h (by norm_num)

/-- Witness for C10: on "xyz" with EN no pattern and no keyword matches, so
the fallback path is taken with confidence 0.5 and empty entities. -/
theorem extractIntent_fallback_entities_empty_witness :
    (LanguageManager.extractIntent "xyz" EN).confidence = 0.5 ∧
      (LanguageManager.extractIntent "xyz" EN).entities = [] :=
  ⟨rfl, extractIntent_fallback_entities_empty "xyz" EN rfl⟩

/-! ### Language detector (`LanguageManager.detectLanguage`) -/

/-- Closed range test on code points. -/
def inRange (lo hi : Nat) (c : Char) : Bool := lo ≤ c.toNat && c.toNat ≤ hi

/-- The character class `[а-яА-ЯёЁ]`. -/
def cyrillicClass (c : Char) : Bool :=
  inRange 0x430 0x44F c || inRange 0x410 0x42F c || c.toNat == 0x451 || c.toNat == 0x401

namespace LanguageManager

/-- The shapes of the detection regexes in `LANGUAGE_PATTERNS`: character
runs `[class]+` (global flag: one match per maximal run), bare character
classes `[class]` (one match per matching character) and word lists
`\b(w1|…|wn)\b` with the `gi` flags. -/
inductive LangPat where
  | runOf (cls : Char → Bool)
  | anyOf (cls : Char → Bool)
  | wordAlt (ws : List String)

/-- Count the maximal runs of characters satisfying `cls`
(matches of `[class]+` under the `g` flag).  The boolean state records
whether the previous character was inside a run. -/
def countRunsAux (cls : Char → Bool) : Bool → List Char → Nat
  | _, [] => 0
  | inRun, c :: t =>
    if cls c then
      if inRun then countRunsAux cls true t else 1 + countRunsAux cls true t
    else countRunsAux cls false t

/-- Matches of `[class]+` with the `g` flag. -/
def countRuns (cls : Char → Bool) (l : List Char) : Nat := countRunsAux cls false l

/-- Matches of a bare `[class]` with the `g` flag. -/
def countChars (cls : Char → Bool) (l : List Char) : Nat := (l.filter cls).length

/-- First alternative of `\b(w1|…|wn)\b` matching at the current position,
with both word boundaries; returns the matched word and the rest. -/
def altMatchAt (ws : List (List Char)) (prev : Option Char) (l : List Char) :
    Option (List Char × List Char) :=
  match ws with
  | [] => none
  | v :: vs =>
    match (if wordOpt prev != wordOpt v.head? then ciPrefix v l else none) with
    | some rest =>
      if wordOpt v.getLast? != wordOpt rest.head? then some (v, rest)
      else altMatchAt vs prev l
    | none => altMatchAt vs prev l

/-- Global scan of `\b(w1|…|wn)\b` counting matches; after a match the scan
resumes right after it.  Fuel is the remaining text length plus one, which
suffices because every step consumes at least one character. -/
def countWordAltAux (ws : List (List Char)) : Nat → Option Char → List Char → Nat
  | 0, _, _ => 0
  | fuel + 1, prev, l =>
    match altMatchAt ws prev l with
    | some (v, rest) => 1 + countWordAltAux ws fuel v.getLast? rest
    | none =>
      match l with
      | [] => 0
      | c :: rest => countWordAltAux ws fuel (some c) rest

/-- Match count of `\b(w1|…|wn)\b` with the `gi` flags (alternatives are
stored lowercase; text characters are case-folded by `ciPrefix`). -/
def countWordAlt (ws : List String) (text : List Char) : Nat :=
  countWordAltAux (ws.map String.toList) (text.length + 1) none text

/-- `text.match(pattern)` count for one detection regex. -/
def countPat (p : LangPat) (text : String) : Nat :=
  match p with
  | .runOf cls => countRuns cls text.toList
  | .anyOf cls => countChars cls text.toList
  | .wordAlt ws => countWordAlt ws text.toList

/-- `[äöüÄÖÜß]` (the `g`-only class of the DE entry, both cases listed). -/
def deClass (c : Char) : Bool :=
  c.toNat == 0xE4 || c.toNat == 0xF6 || c.toNat == 0xFC ||
  c.toNat == 0xC4 || c.toNat == 0xD6 || c.toNat == 0xDC || c.toNat == 0xDF

/-- `[àâçèéêëîïôùûüÿœæ]` with the `i` flag (folded before comparison). -/
def frClass (c : Char) : Bool :=
  let m := (jsToLower c).toNat
  m == 0xE0 || m == 0xE2 || m == 0xE7 || m == 0xE8 || m == 0xE9 || m == 0xEA ||
  m == 0xEB || m == 0xEE || m == 0xEF || m == 0xF4 || m == 0xF9 || m == 0xFB ||
  m == 0xFC || m == 0xFF || m == 0x153 || m == 0xE6

/-- `[áéíóúñ¿¡]` with the `i` flag. -/
def esClass (c : Char) : Bool :=
  let m := (jsToLower c).toNat
  m == 0xE1 || m == 0xE9 || m == 0xED || m == 0xF3 || m == 0xFA ||
  m == 0xF1 || m == 0xBF || m == 0xA1

/-- `[àáâãçéêíóôõú]` with the `i` flag. -/
def ptClass (c : Char) : Bool :=
  let m := (jsToLower c).toNat
  m == 0xE0 || m == 0xE1 || m == 0xE2 || m == 0xE3 || m == 0xE7 || m == 0xE9 ||
  m == 0xEA || m == 0xED || m == 0xF3 || m == 0xF4 || m == 0xF5 || m == 0xFA

/-- `[çğıöşüÇĞİÖŞÜ]` (the `g`-only class of the TR entry, both cases listed). -/
def trClass (c : Char) : Bool :=
  c.toNat == 0xE7 || c.toNat == 0x11F || c.toNat == 0x131 || c.toNat == 0xF6 ||
  c.toNat == 0x15F || c.toNat == 0xFC || c.toNat == 0xC7 || c.toNat == 0x11E ||
  c.toNat == 0x130 || c.toNat == 0xD6 || c.toNat == 0x15E || c.toNat == 0xDC

/-- `[àèéìòù]` with the `i` flag. -/
def itClass (c : Char) : Bool :=
  let m := (jsToLower c).toNat
  m == 0xE0 || m == 0xE8 || m == 0xE9 || m == 0xEC || m == 0xF2 || m == 0xF9

/-- The `LANGUAGE_PATTERNS` table, per language in literal order. -/
def LANGUAGE_PATTERNS : SupportedLanguage → List LangPat
  | EN => [.wordAlt ["the", "and", "or", "but", "in", "on", "at", "to", "for"],
           .wordAlt ["is", "are", "was", "were", "been", "being"]]
  | RU => [.runOf cyrillicClass,
           .wordAlt ["и", "или", "но", "в", "на", "для", "с", "по"]]
  | ZH_CN => [.runOf (inRange 0x4E00 0x9FFF), .runOf (inRange 0x3400 0x4DBF)]
  | ZH_TW => [.runOf (inRange 0x4E00 0x9FFF), .runOf (inRange 0x3400 0x4DBF)]
  | JA => [.runOf (inRange 0x3040 0x309F), .runOf (inRange 0x30A0 0x30FF),
           .runOf (inRange 0x4E00 0x9FAF)]
  | KO => [.runOf (inRange 0xAC00 0xD7AF), .runOf (inRange 0x1100 0x11FF)]
  | DE => [.wordAlt ["der", "die", "das", "und", "oder", "aber", "in", "auf", "mit"],
           .anyOf deClass]
  | FR => [.wordAlt ["le", "la", "les", "et", "ou", "mais", "dans", "sur", "avec"],
           .anyOf frClass]
  | ES => [.wordAlt ["el", "la", "los", "las", "y", "o", "pero", "en", "con"],
           .anyOf esClass]
  | PT => [.wordAlt ["o", "a", "os", "as", "e", "ou", "mas", "em", "com"],
           .anyOf ptClass]
  | TR => [.wordAlt ["ve", "veya", "ama", "ile", "için"], .anyOf trClass]
  | TH => [.runOf (inRange 0x0E00 0x0E7F),
           .wordAlt ["และ", "หรือ", "แต่", "ใน", "กับ"]]
  | IT => [.wordAlt ["il", "la", "lo", "gli", "le", "e", "o", "ma", "in", "con"],
           .anyOf itClass]
  | HI => [.runOf (inRange 0x0900 0x097F),
           .wordAlt ["और", "या", "लेकिन", "में", "के साथ"]]

/-- The `COMMON_PHRASES` table. -/
def COMMON_PHRASES : SupportedLanguage → List String
  | EN => ["hello", "please", "thank you", "yes", "no"]
  | RU => ["привет", "пожалуйста", "спасибо", "да", "нет"]
  | ZH_CN => ["你好", "请", "谢谢", "是", "不是"]
  | ZH_TW => ["你好", "請", "謝謝", "是", "不是"]
  | JA => ["こんにちは", "お願いします", "ありがとう", "はい", "いいえ"]
  | KO => ["안녕하세요", "부탁합니다", "감사합니다", "네", "아니요"]
  | DE => ["hallo", "bitte", "danke", "ja", "nein"]
  | FR => ["bonjour", "s\x27il vous plaît", "merci", "oui", "non"]
  | ES => ["hola", "por favor", "gracias", "sí", "no"]
  | PT => ["olá", "por favor", "obrigado", "sim", "não"]
  | TR => ["merhaba", "lütfen", "teşekkürler", "evet", "hayır"]
  | TH => ["สวัสดี", "กรุณา", "ขอบคุณ", "ใช่", "ไม่"]
  | IT => ["ciao", "per favore", "grazie", "sì", "no"]
  | HI => ["नमस्ते", "कृपया", "धन्यवाद", "हाँ", "नहीं"]

/-- Per-language score: regex-match counts plus 10 per common phrase found
(case-insensitive containment). -/
def languageScore (text : String) (lang : SupportedLanguage) : Nat :=
  ((LANGUAGE_PATTERNS lang).map (fun p => countPat p text)).sum
    + 10 * ((COMMON_PHRASES lang).filter
        (fun phrase => containsSub (lowerList text) (lowerList phrase))).length

/-- Scores in enumeration order, as built by the detection loop. -/
def scoresList (text : String) : List (SupportedLanguage × Nat) :=
  allLanguages.map (fun lang => (lang, languageScore text lang))

/-- One step of the stable descending insertion modelling
`Array.prototype.sort((a, b) => b[1] - a[1])` (stable per ES2019): an
element moves before an earlier one only when its score is strictly
larger. -/
def insertScore (x : SupportedLanguage × Nat) :
    List (SupportedLanguage × Nat) → List (SupportedLanguage × Nat)
  | [] => [x]
  | y :: ys => if y.2 ≤ x.2 then x :: y :: ys else y :: insertScore x ys

/-- Stable sort of the score list, descending by score. -/
def sortScores : List (SupportedLanguage × Nat) → List (SupportedLanguage × Nat)
  | [] => []
  | x :: xs => insertScore x (sortScores xs)

/-- Script classification (`detectScript`), first-match priority. -/
inductive Script where
  | latin | cyrillic | cjk | arabic | devanagari
deriving DecidableEq

/-- `detectScript(text)`. -/
def detectScript (text : String) : Script :=
  if text.toList.any cyrillicClass then .cyrillic
  else if text.toList.any (fun c =>
      inRange 0x4E00 0x9FFF c || inRange 0x3040 0x30FF c || inRange 0xAC00 0xD7AF c) then .cjk
  else if text.toList.any (inRange 0x600 0x6FF) then .arabic
  else if text.toList.any (inRange 0x900 0x97F) then .devanagari
  else .latin

/-- One entry of the alternatives list. -/
structure LanguageAlternative where
  language : SupportedLanguage
  confidence : ℚ

/-- `LanguageDetectionResult` of `src/polyglot/types.ts`. -/
structure LanguageDetectionResult where
  language : SupportedLanguage
  confidence : ℚ
  alternatives : List LanguageAlternative
  script : Script

/-- Scores sorted descending (`sortedScores` in the source). -/
def sortedScores (text : String) : List (SupportedLanguage × Nat) :=
  sortScores (scoresList text)

/-- `totalScore` in the source. -/
def totalScore (text : String) : Nat := ((scoresList text).map (·.2)).sum

/-- `LanguageManager.detectLanguage(text)` (the memoization cache is elided:
it stores and returns exactly this value). -/
def detectLanguage (text : String) : LanguageDetectionResult :=
  ⟨((sortedScores text).headD (EN, 0)).1,
   if 0 < totalScore text
     then (((sortedScores text).headD (EN, 0)).2 : ℚ) / (totalScore text : ℚ) else 0,
   (((sortedScores text).drop 1).take 3).map (fun p =>
     ⟨p.1, if 0 < totalScore text then (p.2 : ℚ) / (totalScore text : ℚ) else 0⟩),
   detectScript text⟩

end LanguageManager

/-! ### Lemmas about the score sort -/

theorem insertScore_perm (x : SupportedLanguage × Nat)
    (l : List (SupportedLanguage × Nat)) :
    (LanguageManager.insertScore x l).Perm (x :: l) := by
  induction l with
  | nil => exact List.Perm.refl _
  | cons y ys ih =>
    by_cases h : y.2 ≤ x.2
    · rw [LanguageManager.insertScore, if_pos h]
    · rw [LanguageManager.insertScore, if_neg h]
      exact (ih.cons y).trans (List.Perm.swap x y ys)

theorem sortScores_perm (l : List (SupportedLanguage × Nat)) :
    (LanguageManager.sortScores l).Perm l := by
  induction l with
  | nil => exact List.Perm.refl _
  | cons x xs ih =>
    exact (insertScore_perm x (LanguageManager.sortScores xs)).trans (ih.cons x)

theorem pairwise_insertScore (x : SupportedLanguage × Nat)
    (l : List (SupportedLanguage × Nat))
    (h : l.Pairwise (fun a b => b.2 ≤ a.2)) :
    (LanguageManager.insertScore x l).Pairwise (fun a b => b.2 ≤ a.2) := by
  induction l with
  | nil => simp [LanguageManager.insertScore]
  | cons y ys ih =>
    rcases List.pairwise_cons.mp h with ⟨hy, hys⟩
    by_cases hc : y.2 ≤ x.2
    · rw [LanguageManager.insertScore, if_pos hc]
      refine List.pairwise_cons.mpr ⟨?_, h⟩
      intro z hz
      rcases List.mem_cons.mp hz with rfl | hz2
      · exact hc
      · exact le_trans (hy z hz2) hc
    · rw [LanguageManager.insertScore, if_neg hc]
      refine List.pairwise_cons.mpr ⟨?_, ih hys⟩
      intro z hz
      rcases List.mem_cons.mp ((insertScore_perm x ys).mem_iff.mp hz) with rfl | hz2
      · omega
      · exact hy z hz2

theorem sortScores_pairwise (l : List (SupportedLanguage × Nat)) :
    (LanguageManager.sortScores l).Pairwise (fun a b => b.2 ≤ a.2) := by
  induction l with
  | nil => exact List.Pairwise.nil
  | cons x xs ih => exact pairwise_insertScore x _ ih

theorem snd_le_sum (p : SupportedLanguage × Nat) (l : List (SupportedLanguage × Nat))
    (h : p ∈ l) : p.2 ≤ (l.map (·.2)).sum := by
  induction l with
  | nil => cases h
  | cons y ys ih =>
    rcases List.mem_cons.mp h with rfl | h2
    · simp
    · simp only [List.map_cons, List.sum_cons]
      exact le_trans (ih h2) (Nat.le_add_left _ _)

theorem scoresList_map_fst (text : String) :
    (LanguageManager.scoresList text).map Prod.fst = allLanguages := by
  unfold LanguageManager.scoresList
  rw [List.map_map]
  exact (List.map_congr_left fun l _ => rfl).trans (List.map_id _)

theorem sortedScores_length (text : String) :
    (LanguageManager.sortedScores text).length = 14 := by
  unfold LanguageManager.sortedScores
  rw [(sortScores_perm (LanguageManager.scoresList text)).length_eq]
  unfold LanguageManager.scoresList
  simp [allLanguages]

theorem sortedScores_cons (text : String) :
    ∃ hd tl, LanguageManager.sortedScores text = hd :: tl := by
  rcases he : LanguageManager.sortedScores text with _ | ⟨hd, tl⟩
  · have hl := sortedScores_length text
    rw [he] at hl
    simp at hl
  · exact ⟨hd, tl, rfl⟩

/-- Claim C6: for every input text, `detectLanguage` returns a result whose
confidence lies in [0,1], whose alternatives list has at most 3 entries,
never contains the winning language, and is sorted descending by each
alternative's own score/total confidence. -/
theorem detectLanguage_wellformed (text : String) :
    0 ≤ (LanguageManager.detectLanguage text).confidence ∧
      (LanguageManager.detectLanguage text).confidence ≤ 1 ∧
      (LanguageManager.detectLanguage text).alternatives.length ≤ 3 ∧
      (∀ a ∈ (LanguageManager.detectLanguage text).alternatives,
        a.language ≠ (LanguageManager.detectLanguage text).language) ∧
      (LanguageManager.detectLanguage text).alternatives.Pairwise
        (fun a b => b.confidence ≤ a.confidence) := by
  obtain ⟨hd, tl, he⟩ := sortedScores_cons text
  have hperm : (LanguageManager.sortedScores text).Perm
      (LanguageManager.scoresList text) := sortScores_perm _
  have hmemhd : hd ∈ LanguageManager.scoresList text :=
    hperm.subset (he ▸ List.mem_cons_self hd tl)
  have htop : hd.2 ≤ LanguageManager.totalScore text :=
    snd_le_sum hd _ hmemhd
  have hnodup : (hd.1 :: tl.map Prod.fst).Nodup := by
    have h1 := (hperm.map Prod.fst).nodup_iff.mpr
      (by rw [scoresList_map_fst]; decide)
    rw [he] at h1
    simpa using h1
  have hfst : hd.1 ∉ tl.map Prod.fst := (List.nodup_cons.mp hnodup).1
  have hpw := sortScores_pairwise (LanguageManager.scoresList text)
  have hpw2 : (hd :: tl).Pairwise (fun a b => b.2 ≤ a.2) := by
    rw [← he]
    exact hpw
  unfold LanguageManager.detectLanguage
  rw [he]
  simp only [List.headD_cons]
  refine ⟨?_, ?_, ?_, ?_, ?_⟩
  · split_ifs with h
    · exact div_nonneg (Nat.cast_nonneg _) (Nat.cast_nonneg _)
    · exact le_refl 0
  · split_ifs with h
    · rw [div_le_one (by exact_mod_cast h)]
      exact_mod_cast htop
    · norm_num
  · simp only [List.drop_succ_cons, List.drop_zero, List.length_map, List.length_take]
    exact Nat.min_le_left _ _
  · intro a ha
    simp only [List.drop_succ_cons, List.drop_zero, List.mem_map] at ha
    obtain ⟨p, hp, hpa⟩ := ha
    have hptl : p ∈ tl := List.take_subset _ _ hp
    have : p.1 ∈ tl.map Prod.fst := List.mem_map_of_mem Prod.fst hptl
    intro hcon
    apply hfst
    rw [← hpa] at hcon
    simpa [← hcon] using this
  · simp only [List.drop_succ_cons, List.drop_zero]
    rw [List.pairwise_map]
    have htl : tl.Pairwise (fun a b => b.2 ≤ a.2) := (List.pairwise_cons.mp hpw2).2
    have htake : (tl.take 3).Pairwise (fun a b => b.2 ≤ a.2) :=
      htl.sublist (List.take_sublist 3 tl)
    refine htake.imp ?_
    intro a b hab
    split_ifs with h
    · have hc : (0:ℚ) < (LanguageManager.totalScore text : ℚ) := by exact_mod_cast h
      rw [div_le_div_iff_of_pos_right hc]
      exact_mod_cast hab
    · exact le_refl 0

/-- Claim C7: on the empty string, or on any input in which every language's
score is zero, `detectLanguage` returns normally with confidence 0, the
winner is the first-enumerated language EN, and every alternative has
confidence 0. -/
theorem detectLanguage_zero_signal (text : String)
    (h : ∀ l, LanguageManager.languageScore text l = 0) :
    (LanguageManager.detectLanguage text).language = EN ∧
      (LanguageManager.detectLanguage text).confidence = 0 ∧
      ∀ a ∈ (LanguageManager.detectLanguage text).alternatives, a.confidence = 0 := by
  have hs : LanguageManager.scoresList text = allLanguages.map (fun l => (l, 0)) := by
    unfold LanguageManager.scoresList
    exact List.map_congr_left fun l _ => by rw [h l]
  have hdl : LanguageManager.detectLanguage text =
      ⟨EN, 0,
       [⟨RU, 0⟩, ⟨ZH_CN, 0⟩, ⟨ZH_TW, 0⟩],
       LanguageManager.detectScript text⟩ := by
    unfold LanguageManager.detectLanguage LanguageManager.sortedScores
      LanguageManager.totalScore
    rw [hs]
    rfl
  rw [hdl]
  refine ⟨rfl, rfl, ?_⟩
  intro a ha
  fin_cases ha <;> rfl

/-- Witness for C7: the empty string gives every language score zero, and
the theorem's conclusion holds there. -/
theorem detectLanguage_zero_signal_witness :
    (LanguageManager.detectLanguage "").language = EN ∧
      (LanguageManager.detectLanguage "").confidence = 0 ∧
      ∀ a ∈ (LanguageManager.detectLanguage "").alternatives, a.confidence = 0 :=
  detectLanguage_zero_signal "" (fun l => by cases l <;> rfl)

/-! ### Cultural context analyzer (`src/cultural/context-analyzer.ts`)

`analyze` copies the base row with a JavaScript spread (`{ ...config }`),
which is a shallow copy: the nested `businessEtiquette` object stays
shared between the static table and every profile derived from it.  The
embedding therefore separates the per-language nested etiquette objects
into an explicit mutable store (`SupportedLanguage → Option
BusinessEtiquette`) threaded through `analyze`, while the scalar fields of
the rows live in `CULTURAL_CONFIGS`. -/

namespace CulturalContextAnalyzer

inductive CommStyle where
  | direct | indirect | contextual
deriving DecidableEq

inductive DecisionStyle where
  | individual | consensus | hierarchical
deriving DecidableEq

inductive Formality where
  | informal | neutral | formal | veryFormal
deriving DecidableEq

/-- The nested `businessEtiquette` object. -/
structure BusinessEtiquette where
  greetingStyle : String
  communicationStyle : CommStyle
  decisionMaking : DecisionStyle
deriving DecidableEq

/-- The `one` entry of a `pluralizationRules` object as stored in
`CULTURAL_CONFIGS`: the numeric literal `1` (EN) or one of the three JS
expression strings appearing in the table. -/
inductive OneRule where
  | numLit (v : Nat)
  | exprEqOne
  | exprRu
  | exprZeroOrOne
deriving DecidableEq

/-- `pluralizationRules`; only the `one` entry is ever read by
`applyPluralization` (the `few`/`many`/`other` entries are dead data). -/
structure PluralRules where
  one : Option OneRule
deriving DecidableEq

/-- Scalar fields of one `CULTURAL_CONFIGS` row. -/
structure CulturalConfig where
  language : SupportedLanguage
  region : String
  timezone : String
  dateFormat : String
  numberFormat : String
  currencyFormat : Option String
  formalityLevel : Formality
  writingDirection : String
  pluralizationRules : Option PluralRules
deriving DecidableEq

def configEN : CulturalConfig :=
  ⟨EN, "US", "America/New_York", "MM/DD/YYYY", "1,234.56", some "$1,234.56",
   .neutral, "ltr", some ⟨some (.numLit 1)⟩⟩

def configRU : CulturalConfig :=
  ⟨RU, "RU", "Europe/Moscow", "DD.MM.YYYY", "1 234,56", some "1 234,56 ₽",
   .formal, "ltr", some ⟨some .exprRu⟩⟩

def configJA : CulturalConfig :=
  ⟨JA, "JP", "Asia/Tokyo", "YYYY年MM月DD日", "1,234.56", some "¥1,234",
   .veryFormal, "ltr", some ⟨none⟩⟩

def configZH_CN : CulturalConfig :=
  ⟨ZH_CN, "CN", "Asia/Shanghai", "YYYY年MM月DD日", "1,234.56", some "¥1,234.56",
   .formal, "ltr", some ⟨none⟩⟩

def configZH_TW : CulturalConfig :=
  ⟨ZH_TW, "TW", "Asia/Taipei", "YYYY年MM月DD日", "1,234.56", some "NT$1,234.56",
   .formal, "ltr", some ⟨none⟩⟩

def configKO : CulturalConfig :=
  ⟨KO, "KR", "Asia/Seoul", "YYYY년 MM월 DD일", "1,234.56", some "₩1,234",
   .veryFormal, "ltr", some ⟨none⟩⟩

def configDE : CulturalConfig :=
  ⟨DE, "DE", "Europe/Berlin", "DD.MM.YYYY", "1.234,56", some "1.234,56 €",
   .formal, "ltr", some ⟨some .exprEqOne⟩⟩

def configFR : CulturalConfig :=
  ⟨FR, "FR", "Europe/Paris", "DD/MM/YYYY", "1 234,56", some "1 234,56 €",
   .formal, "ltr", some ⟨some .exprZeroOrOne⟩⟩

def configES : CulturalConfig :=
  ⟨ES, "ES", "Europe/Madrid", "DD/MM/YYYY", "1.234,56", some "1.234,56 €",
   .neutral, "ltr", some ⟨some .exprEqOne⟩⟩

def configPT : CulturalConfig :=
  ⟨PT, "BR", "America/Sao_Paulo", "DD/MM/YYYY", "1.234,56", some "R$ 1.234,56",
   .neutral, "ltr", some ⟨some .exprZeroOrOne⟩⟩

def configTR : CulturalConfig :=
  ⟨TR, "TR", "Europe/Istanbul", "DD.MM.YYYY", "1.234,56", some "1.234,56 ₺",
   .formal, "ltr", some ⟨some .exprEqOne⟩⟩

/-- Scalar parts of `CULTURAL_CONFIGS`; TH, IT and HI are missing from the
table literal (despite its `Record<SupportedLanguage, …>` type annotation),
so the lookup is `Option`-valued. -/
def CULTURAL_CONFIGS : SupportedLanguage → Option CulturalConfig
  | EN => some configEN
  | RU => some configRU
  | JA => some configJA
  | ZH_CN => some configZH_CN
  | ZH_TW => some configZH_TW
  | KO => some configKO
  | DE => some configDE
  | FR => some configFR
  | ES => some configES
  | PT => some configPT
  | TR => some configTR
  | TH | IT | HI => none

/-- Initial values of the shared nested `businessEtiquette` objects, one per
configured language. -/
def INIT_ETIQUETTE : SupportedLanguage → Option BusinessEtiquette
  | EN => some ⟨"Hi/Hello", .direct, .individual⟩
  | RU => some ⟨"Здравствуйте", .contextual, .hierarchical⟩
  | JA => some ⟨"お世話になっております", .indirect, .consensus⟩
  | ZH_CN => some ⟨"您好", .indirect, .hierarchical⟩
  | ZH_TW => some ⟨"您好", .indirect, .consensus⟩
  | KO => some ⟨"안녕하십니까", .indirect, .hierarchical⟩
  | DE => some ⟨"Guten Tag", .direct, .consensus⟩
  | FR => some ⟨"Bonjour", .contextual, .hierarchical⟩
  | ES => some ⟨"Hola/Buenos días", .contextual, .hierarchical⟩
  | PT => some ⟨"Olá/Bom dia", .contextual, .consensus⟩
  | TR => some ⟨"Merhaba/Günaydın", .indirect, .hierarchical⟩
  | TH | IT | HI => none

/-- One row of `TIME_BASED_GREETINGS`. -/
structure TimeGreetings where
  morning : String
  afternoon : String
  evening : String
  night : String
deriving DecidableEq

/-- `TIME_BASED_GREETINGS`; TH, IT and HI are missing from this table too. -/
def TIME_BASED_GREETINGS : SupportedLanguage → Option TimeGreetings
  | EN => some ⟨"Good morning", "Good afternoon", "Good evening", "Good night"⟩
  | RU => some ⟨"Доброе утро", "Добрый день", "Добрый вечер", "Спокойной ночи"⟩
  | JA => some ⟨"おはようございます", "こんにちは", "こんばんは", "おやすみなさい"⟩
  | ZH_CN => some ⟨"早上好", "下午好", "晚上好", "晚安"⟩
  | ZH_TW => some ⟨"早安", "午安", "晚安", "晚安"⟩
  | KO => some ⟨"좋은 아침입니다", "안녕하세요", "좋은 저녁입니다", "안녕히 주무세요"⟩
  | DE => some ⟨"Guten Morgen", "Guten Tag", "Guten Abend", "Gute Nacht"⟩
  | FR => some ⟨"Bonjour", "Bon après-midi", "Bonsoir", "Bonne nuit"⟩
  | ES => some ⟨"Buenos días", "Buenas tardes", "Buenas tardes", "Buenas noches"⟩
  | PT => some ⟨"Bom dia", "Boa tarde", "Boa noite", "Boa noite"⟩
  | TR => some ⟨"Günaydın", "İyi günler", "İyi akşamlar", "İyi geceler"⟩
  | TH | IT | HI => none

/-- One row of the `formalityMarkers` table inside `detectFormalityLevel`. -/
structure FormalityMarkers where
  informal : List String
  formal : List String
  veryFormal : List String

/-- The formality-marker table: only EN, RU, JA and KO are populated. -/
def formalityMarkers : SupportedLanguage → Option FormalityMarkers
  | EN => some ⟨["hey", "hi", "yeah", "yep", "nope", "gonna", "wanna"],
                ["please", "kindly", "would you", "could you", "sir", "madam"],
                ["respectfully", "esteemed", "distinguished", "honorable"]⟩
  | RU => some ⟨["привет", "ты", "твой", "давай", "окей"],
                ["вы", "ваш", "пожалуйста", "будьте добры"],
                ["уважаемый", "господин", "госпожа", "высокоуважаемый"]⟩
  | JA => some ⟨["だ", "だよ", "だね", "じゃん", "ちゃん"],
                ["です", "ます", "ください", "さん"],
                ["ございます", "いらっしゃいます", "申し上げます", "様"]⟩
  | KO => some ⟨["야", "아/어", "니", "너", "네"],
                ["요", "습니다", "세요", "씨"],
                ["십니다", "하십시오", "님", "귀하"]⟩
  | _ => none

/-- `detectFormalityLevel(text, language)`: count case-insensitive substring
hits per tier; any very-formal hit wins, else the larger of formal/informal,
else neutral; `null` when the language has no marker table. -/
def detectFormalityLevel (text : String) (language : SupportedLanguage) :
    Option Formality :=
  match formalityMarkers language with
  | none => none
  | some markers =>
    let lowerText := lowerList text
    let informalCount :=
      (markers.informal.filter (fun m => containsSub lowerText m.toList)).length
    let formalCount :=
      (markers.formal.filter (fun m => containsSub lowerText m.toList)).length
    let veryFormalCount :=
      (markers.veryFormal.filter (fun m => containsSub lowerText m.toList)).length
    if 0 < veryFormalCount then some .veryFormal
    else if informalCount < formalCount then some .formal
    else if formalCount < informalCount then some .informal
    else some .neutral

/-- `getTimeBasedGreeting(language, time)` with the hour of `time.getHours()`. -/
def getTimeBasedGreeting (language : SupportedLanguage) (hour : Nat) : Option String :=
  match TIME_BASED_GREETINGS language with
  | none => none
  | some g =>
    some (if 5 ≤ hour ∧ hour < 12 then g.morning
      else if 12 ≤ hour ∧ hour < 17 then g.afternoon
      else if 17 ≤ hour ∧ hour < 21 then g.evening
      else g.night)

/-- Keys of the `businessIndicators` object. -/
inductive Topic where
  | meeting | presentation | negotiation | contract
deriving DecidableEq

def meetingKeywords : List String := ["meeting", "встреча", "会議", "会议", "회의"]

def presentationKeywords : List String :=
  ["presentation", "презентация", "プレゼン", "演示", "발표"]

def negotiationKeywords : List String := ["negotiation", "переговоры", "交渉", "谈判", "협상"]

def contractKeywords : List String := ["contract", "договор", "契約", "合同", "계약"]

/-- `businessIndicators`, in object-literal order. -/
def businessIndicators : List (Topic × List String) :=
  [(.meeting, meetingKeywords),
   (.presentation, presentationKeywords),
   (.negotiation, negotiationKeywords),
   (.contract, contractKeywords)]

/-- The `for…of Object.entries(businessIndicators)` loop of
`detectBusinessContext`: when a topic's keyword hits, the body returns an
etiquette update only for negotiation or presentation; for any other
matching topic the body falls through and the loop continues. -/
def bcLoop : List (Topic × List String) → List Char → Option (CommStyle × DecisionStyle)
  | [], _ => none
  | (topic, keywords) :: rest, lowerText =>
    if keywords.any (fun k => containsSub lowerText k.toList) then
      if topic = Topic.negotiation then some (.indirect, .consensus)
      else if topic = Topic.presentation then some (.direct, .hierarchical)
      else bcLoop rest lowerText
    else bcLoop rest lowerText

/-- `detectBusinessContext(text, language)` (the language argument is unused
in the source). -/
def detectBusinessContext (text : String) (_language : SupportedLanguage) :
    Option (CommStyle × DecisionStyle) :=
  bcLoop businessIndicators (lowerList text)

/-- Whether some keyword of the list occurs in the lowercased text (used to
state the corrected claim C4). -/
def topicHit (text : String) (keywords : List String) : Bool :=
  keywords.any (fun k => containsSub (lowerList text) k.toList)

/-- The profile object returned by `analyze`: every field can be absent at
run time because spreading the `undefined` row of a missing language
produces `{}`. -/
structure AnalyzedProfile where
  language : Option SupportedLanguage
  region : Option String
  timezone : Option String
  dateFormat : Option String
  numberFormat : Option String
  currencyFormat : Option String
  formalityLevel : Option Formality
  businessEtiquette : Option BusinessEtiquette
  writingDirection : Option String
  pluralizationRules : Option PluralRules
deriving DecidableEq

/-- The optional `options` argument of `analyze` (`timeOfDay` is the hour of
the passed `Date`). -/
structure AnalyzeOptions where
  region : Option String := none
  timezone : Option String := none
  timeOfDay : Option Nat := none
deriving DecidableEq

/-- `CulturalContextAnalyzer.analyze(language, text, options)`, threading the
store of shared nested etiquette objects.  The returned profile's
`businessEtiquette` is the final state of the shared object, because the
shallow spread copies only the reference. -/
def analyze (etq : SupportedLanguage → Option BusinessEtiquette)
    (language : SupportedLanguage) (text : String) (options : AnalyzeOptions) :
    AnalyzedProfile × (SupportedLanguage → Option BusinessEtiquette) :=
  let base0 : AnalyzedProfile :=
    match CULTURAL_CONFIGS language with
    | some c =>
      ⟨some c.language, some c.region, some c.timezone, some c.dateFormat,
       some c.numberFormat, c.currencyFormat, some c.formalityLevel,
       etq language, some c.writingDirection, c.pluralizationRules⟩
    | none => ⟨none, none, none, none, none, none, none, none, none, none⟩
  let base1 := { base0 with
    region := match options.region with
      | some r => some r
      | none => base0.region,
    timezone := match options.timezone with
      | some t => some t
      | none => base0.timezone }
  let base2 := match detectFormalityLevel text language with
    | some f => { base1 with formalityLevel := some f }
    | none => base1
  let etq1 := match options.timeOfDay with
    | some hour =>
      match getTimeBasedGreeting language hour, etq language with
      | some g, some e =>
        fun l => if l = language then some { e with greetingStyle := g } else etq l
      | _, _ => etq
    | none => etq
  let etq2 := match detectBusinessContext text language, etq1 language with
    | some (cs, dm), some e =>
      fun l =>
        if l = language then
          some { e with communicationStyle := cs, decisionMaking := dm }
        else etq1 l
    | _, _ => etq1
  ({ base2 with businessEtiquette := etq2 language }, etq2)

/-- Truthiness of the stored `rules.one` value (`rules.one && …`). -/
def oneTruthy : OneRule → Bool
  | .numLit v => v != 0
  | _ => true

/-- The evaluation `eval(rules.one.replace('n', String(count)))`:
`String.prototype.replace` with a string pattern substitutes only the FIRST
occurrence of "n", so every later `n` stays free and raises a
ReferenceError when short-circuit evaluation reaches it; on the numeric
literal `1` stored for EN, `.replace` itself is not a function and raises a
TypeError. -/
def evalOneRule : OneRule → Nat → Except String Bool
  | .numLit _, _ => .error "TypeError"
  | .exprEqOne, count => .ok (count = 1)
  | .exprRu, count =>
    if count % 10 = 1 then .error "ReferenceError" else .ok false
  | .exprZeroOrOne, count =>
    if count = 0 then .ok true else .error "ReferenceError"

/-- `applyPluralization(count, singular, plural, context)`. -/
def applyPluralization (count : Nat) (singular plural : String)
    (context : CulturalConfig) : Except String String :=
  match context.pluralizationRules with
  | none => .ok (if count = 1 then singular else plural)
  | some rules =>
    match rules.one with
    | none => .ok plural
    | some rule =>
      if oneTruthy rule then
        match evalOneRule rule count with
        | .error e => .error e
        | .ok true => .ok singular
        | .ok false => .ok plural
      else .ok plural

/-- A profile without `pluralizationRules`, exercising the fallback branch of
`applyPluralization`. -/
def noRulesConfig : CulturalConfig := { configEN with pluralizationRules := none }

end CulturalContextAnalyzer

/-- Claim C1 (failing input): `analyze(EN, "negotiation")` mutates the stored
base profile — the nested `businessEtiquette` object shared through the
shallow `{ ...config }` copy is overwritten by `Object.assign`, so after the
call the stored EN etiquette differs from its value before the call. -/
theorem analyze_mutates_base_etiquette :
    (CulturalContextAnalyzer.analyze CulturalContextAnalyzer.INIT_ETIQUETTE
        EN "negotiation" {}).2 EN
        ≠ CulturalContextAnalyzer.INIT_ETIQUETTE EN ∧
      (CulturalContextAnalyzer.analyze CulturalContextAnalyzer.INIT_ETIQUETTE
        EN "negotiation" {}).2 EN
        = some ⟨"Hi/Hello", .indirect, .consensus⟩ := by
  exact ⟨by decide, by decide⟩

/-- Claim C2 (failing input): for TH (also IT, HI) the `CULTURAL_CONFIGS`
literal has no row although its `Record<SupportedLanguage, …>` type requires
one, so `analyze(TH, text)` spreads `undefined` and returns a profile whose
`dateFormat` and `numberFormat` are absent, not non-empty strings. -/
theorem analyze_th_formats_missing :
    (CulturalContextAnalyzer.analyze CulturalContextAnalyzer.INIT_ETIQUETTE
        TH "hello" {}).1.dateFormat = none ∧
      (CulturalContextAnalyzer.analyze CulturalContextAnalyzer.INIT_ETIQUETTE
        TH "hello" {}).1.numberFormat = none := by
  exact ⟨by decide, by decide⟩

/-- Claim C4 (counterexample): on "meeting negotiation" the meeting topic
matches first, yet the scan continues and the later negotiation topic still
forces communicationStyle/decisionMaking — contradicting "the first topic
whose keyword occurs decides the outcome with no further topics checked". -/
theorem detectBusinessContext_meeting_not_first_wins :
    CulturalContextAnalyzer.detectBusinessContext "meeting negotiation" EN
        = some (.indirect, .consensus) ∧
      ((CulturalContextAnalyzer.analyze CulturalContextAnalyzer.INIT_ETIQUETTE
        EN "meeting negotiation" {}).1.businessEtiquette).map
          (fun e => e.communicationStyle) = some .indirect := by
  exact ⟨by decide, by decide⟩

/-- Claim C4 (amended): the topics are scanned in the fixed order meeting,
presentation, negotiation, contract, but only presentation and negotiation
return an effect; a meeting or contract hit neither decides the outcome nor
stops the scan, so the first effectful hit in scan order (presentation
before negotiation) decides, and with neither no etiquette field is
forced. -/
theorem detectBusinessContext_characterization (text : String)
    (language : SupportedLanguage) :
    CulturalContextAnalyzer.detectBusinessContext text language =
      (if CulturalContextAnalyzer.topicHit text
          CulturalContextAnalyzer.presentationKeywords
        then some (.direct, .hierarchical)
        else if CulturalContextAnalyzer.topicHit text
            CulturalContextAnalyzer.negotiationKeywords
          then some (.indirect, .consensus)
          else none) := by
  unfold CulturalContextAnalyzer.detectBusinessContext
    CulturalContextAnalyzer.businessIndicators CulturalContextAnalyzer.topicHit
  by_cases h1 : (CulturalContextAnalyzer.meetingKeywords.any
      (fun k => containsSub (lowerList text) k.toList)) = true <;>
    by_cases h2 : (CulturalContextAnalyzer.presentationKeywords.any
      (fun k => containsSub (lowerList text) k.toList)) = true <;>
    by_cases h3 : (CulturalContextAnalyzer.negotiationKeywords.any
      (fun k => containsSub (lowerList text) k.toList)) = true <;>
    by_cases h4 : (CulturalContextAnalyzer.contractKeywords.any
      (fun k => containsSub (lowerList text) k.toList)) = true <;>
    simp [CulturalContextAnalyzer.bcLoop, h1, h2, h3, h4]

/-- Claim C5 (counterexample): with the EN base profile (whose stored rule is
the numeric literal `1`), `applyPluralization` raises a TypeError for any
count — here count 2 — instead of returning the singular or plural string. -/
theorem applyPluralization_en_raises :
    CulturalContextAnalyzer.applyPluralization 2 "item" "items"
      CulturalContextAnalyzer.configEN = Except.error "TypeError" := by
  rfl

/-- Claim C5 (amended): `applyPluralization` returns singular exactly when
count = 1 for a profile without `pluralizationRules`; among the base
profiles it never raises only for languages whose stored rule is absent
(JA-style: always plural) or the single-`n` string "n == 1" (DE-style);
it raises a TypeError for the EN profile at every count, a ReferenceError
for RU whenever count % 10 = 1, and a ReferenceError for FR at every
nonzero count. -/
theorem applyPluralization_behavior (count : Nat) (s p : String)
    (ctx : CulturalContextAnalyzer.CulturalConfig)
    (h : ctx.pluralizationRules = none) :
    CulturalContextAnalyzer.applyPluralization count s p ctx
        = .ok (if count = 1 then s else p) ∧
      CulturalContextAnalyzer.applyPluralization count s p
        CulturalContextAnalyzer.configEN = .error "TypeError" ∧
      CulturalContextAnalyzer.applyPluralization count s p
        CulturalContextAnalyzer.configJA = .ok p ∧
      CulturalContextAnalyzer.applyPluralization count s p
        CulturalContextAnalyzer.configDE = .ok (if count = 1 then s else p) ∧
      CulturalContextAnalyzer.applyPluralization count s p
        CulturalContextAnalyzer.configRU
        = (if count % 10 = 1 then .error "ReferenceError" else .ok p) ∧
      CulturalContextAnalyzer.applyPluralization count s p
        CulturalContextAnalyzer.configFR
        = (if count = 0 then .ok s else .error "ReferenceError") := by
  refine ⟨?_, ?_, ?_, ?_, ?_, ?_⟩
  · simp [CulturalContextAnalyzer.applyPluralization, h]
  · rfl
  · rfl
  · by_cases hc : count = 1 <;>
      simp [CulturalContextAnalyzer.applyPluralization,
        CulturalContextAnalyzer.configDE, CulturalContextAnalyzer.evalOneRule,
        CulturalContextAnalyzer.oneTruthy, hc]
  · by_cases hc : count % 10 = 1 <;>
      simp [CulturalContextAnalyzer.applyPluralization,
        CulturalContextAnalyzer.configRU, CulturalContextAnalyzer.evalOneRule,
        CulturalContextAnalyzer.oneTruthy, hc]
  · by_cases hc : count = 0 <;>
      simp [CulturalContextAnalyzer.applyPluralization,
        CulturalContextAnalyzer.configFR, CulturalContextAnalyzer.evalOneRule,
        CulturalContextAnalyzer.oneTruthy, hc]

/-- Witness for the amended C5 at count 2 with a rule-free profile. -/
theorem applyPluralization_behavior_witness :
    CulturalContextAnalyzer.applyPluralization 2 "item" "items"
        CulturalContextAnalyzer.noRulesConfig = .ok "items" ∧
      CulturalContextAnalyzer.applyPluralization 2 "item" "items"
        CulturalContextAnalyzer.configJA = .ok "items" := by
  have h := applyPluralization_behavior 2 "item" "items"
    CulturalContextAnalyzer.noRulesConfig rfl
  exact ⟨by rw [h.1]; rfl, h.2.2.1⟩

/-! ### Polyglot agent (`src/polyglot/polyglot-agent.ts`) -/

namespace PolyglotAgent

/-- The tag table of `getLanguagePrefix` (mock translations). -/
def getLanguageTag : SupportedLanguage → String
  | EN => "EN"
  | RU => "RU"
  | ZH_CN => "ZH-CN"
  | ZH_TW => "ZH-TW"
  | JA => "JA"
  | KO => "KO"
  | DE => "DE"
  | FR => "FR"
  | ES => "ES"
  | PT => "PT"
  | TR => "TR"
  | TH => "TH"
  | IT => "IT"
  | HI => "HI"

/-- `LanguageManager.performTranslation`: the mock translation
`[TAG] text`. -/
def performTranslation (text : String) (target : SupportedLanguage) : String :=
  "[" ++ getLanguageTag target ++ "] " ++ text

/-- `applyCulturalAdaptations` returns its content unchanged (the source
body is a placeholder). -/
def applyCulturalAdaptations (content : String) : String := content

/-- `PolyglotAgent.translate(content, target, { culturalAdaptation: true })`:
the language-manager translation followed by the identity cultural
adaptation.  The source-language detection and the translation cache do not
change the returned string. -/
def translate (content : String) (target : SupportedLanguage) : String :=
  applyCulturalAdaptations (performTranslation content target)

/-- `generateMultilingualResponse`: the base executor response keyed by the
primary language, plus one translation per requested non-primary language.
The concurrent fan-out writes are modelled as an association list carrying
the same key set and values as the source's result object. -/
def generateMultilingualResponse (primary : SupportedLanguage) (base : String)
    (languages : List SupportedLanguage) : List (SupportedLanguage × String) :=
  (primary, base) ::
    (languages.filter (fun l => l != primary)).map (fun l => (l, translate base l))

end PolyglotAgent

/-- Claim C9: `generateMultilingualResponse(prompt, [EN, RU, JA])` with EN
primary yields exactly the keys EN, RU, JA; the EN entry is the unmodified
base response; the RU and JA entries are non-empty and differ from the
base (they carry the `[RU] ` / `[JA] ` mock-translation tags). -/
theorem generateMultilingualResponse_en_ru_ja (base : String) :
    (PolyglotAgent.generateMultilingualResponse EN base [EN, RU, JA]).map Prod.fst
        = [EN, RU, JA] ∧
      (PolyglotAgent.generateMultilingualResponse EN base [EN, RU, JA]).lookup EN
        = some base ∧
      (PolyglotAgent.generateMultilingualResponse EN base [EN, RU, JA]).lookup RU
        = some ("[RU] " ++ base) ∧
      (PolyglotAgent.generateMultilingualResponse EN base [EN, RU, JA]).lookup JA
        = some ("[JA] " ++ base) ∧
      "[RU] " ++ base ≠ "" ∧ "[JA] " ++ base ≠ "" ∧
      "[RU] " ++ base ≠ base ∧ "[JA] " ++ base ≠ base := by
  refine ⟨rfl, rfl, rfl, rfl, ?_, ?_, ?_, ?_⟩
  · intro hcon
    have h2 := congrArg String.length hcon
    rw [String.length_append, show ("[RU] " : String).length = 5 from rfl,
      show ("" : String).length = 0 from rfl] at h2
    omega
  · intro hcon
    have h2 := congrArg String.length hcon
    rw [String.length_append, show ("[JA] " : String).length = 5 from rfl,
      show ("" : String).length = 0 from rfl] at h2
    omega
  · intro hcon
    have h2 := congrArg String.length hcon
    rw [String.length_append, show ("[RU] " : String).length = 5 from rfl] at h2
    omega
  · intro hcon
    have h2 := congrArg String.length hcon
    rw [String.length_append, show ("[JA] " : String).length = 5 from rfl] at h2
    omega
